import Mathlib

/-!
# Verification of the ibmnet gmond module's rate/fault-isolation core

Shallow embedding of `src/gmond/modules/ibmnet/mod_ibmnet-aix.c`.

Modelling conventions:
* C `double` values are embedded as `ℚ` (exact rational arithmetic).
* C `long long` counters are embedded as `ℤ`; the source uses `-1LL` as the
  "counter unavailable" sentinel, which we keep verbatim.
* The external `entstat` invocation inside `read_device` either delivers the
  four parsed counters (each `-1` when the corresponding line could not be
  parsed) or is aborted by the `SIGALRM`/`longjmp` path; it is modelled by the
  `SampleResult` oracle argument.  A `timeout` outcome corresponds to the
  signal handler `my_sig_handler` firing: it sets `enabled := false` for the
  interrogated device and `longjmp`s back into `read_device`, which returns
  at once, before any rate-state or `last_read` update.
* The global arrays `netif_devices`, `netif_bytes_received`, ... become the
  fields of `ModuleState`; array writes become `listModify`.
* `malloc` leaves `netif_devices[i].last_read` indeterminate; it is either
  overwritten by the boot-time `read_device` call in `ibmnet_metric_init` or
  the device is disabled and `last_read` is never consulted again.  We model
  the indeterminate initial value as `0`.
-/

namespace Ibmnet

/-- `struct net_perf_data_t`: per (interface, metric-kind) rate state. -/
structure NetPerfData where
  last_value : ℚ
  curr_value : ℚ
  last_total_value : ℤ
  deriving Repr, DecidableEq

/-- `struct netif_devices_t`: per-interface record. -/
structure NetifDevice where
  enabled : Bool
  last_read : ℚ
  threshold : ℚ
  devName : String
  deriving Repr, DecidableEq

instance : Inhabited NetPerfData := ⟨{ last_value := 0, curr_value := 0, last_total_value := 0 }⟩

instance : Inhabited NetifDevice :=
  ⟨{ enabled := false, last_read := 0, threshold := 0, devName := "" }⟩

/-- The four metric kinds handled by the module. -/
inductive Kind where
  | bytesReceived
  | bytesSent
  | pktsReceived
  | pktsSent
  deriving Repr, DecidableEq

/-- Outcome of one `entstat` invocation inside `read_device`: either the four
parsed counters (`-1` = that counter could not be parsed, as in the source's
`bytes_received = bytes_sent = pkts_received = pkts_sent = -1LL`
initialisation), or the `SIGALRM` timeout. -/
inductive SampleResult where
  | timeout
  | data (bytes_received bytes_sent pkts_received pkts_sent : ℤ)
  deriving Repr, DecidableEq

/-- The counter a sample delivers for a given kind; a timed-out sample leaves
every counter at the `-1` sentinel (the updates are skipped entirely). -/
def SampleResult.counter : SampleResult → Kind → ℤ
  | .timeout, _ => -1
  | .data br _ _ _, .bytesReceived => br
  | .data _ bs _ _, .bytesSent => bs
  | .data _ _ pr _, .pktsReceived => pr
  | .data _ _ _ ps, .pktsSent => ps

/-- The module's global mutable state: `netif_devices` plus the four
per-kind `net_perf_data_t` arrays. -/
structure ModuleState where
  devices : List NetifDevice
  bytes_received : List NetPerfData
  bytes_sent : List NetPerfData
  pkts_received : List NetPerfData
  pkts_sent : List NetPerfData
  deriving Repr, DecidableEq

/-- Selector for the four per-kind state arrays. -/
def ModuleState.perf (s : ModuleState) : Kind → List NetPerfData
  | .bytesReceived => s.bytes_received
  | .bytesSent => s.bytes_sent
  | .pktsReceived => s.pkts_received
  | .pktsSent => s.pkts_sent

/-- In-place update of one array slot (`a[i] = f a[i]`); out-of-range writes
are a no-op (the C code only ever writes in range). -/
def listModify {α : Type} : List α → ℕ → (α → α) → List α
  | [], _, _ => []
  | a :: l, 0, f => f a :: l
  | a :: l, n + 1, f => a :: listModify l n f

/-- One per-kind block of `read_device` (lines 313-337 and its three clones):
`delta = raw - last_total_value`; if `delta < 0` keep `last_value`, else
`curr_value = delta / delta_t`; then `last_value = curr_value` and
`last_total_value = raw`. -/
def update_perf_data (d : NetPerfData) (raw : ℤ) (delta_t : ℚ) : NetPerfData :=
  let delta : ℤ := raw - d.last_total_value
  let curr : ℚ := if delta < 0 then d.last_value else (delta : ℚ) / delta_t
  { last_value := curr, curr_value := curr, last_total_value := raw }

/-- `read_device`: runs the (oracle-supplied) `entstat` sample for device
`devIndex`.  On timeout the signal handler disables the device and `longjmp`
returns out of `read_device` before any other update.  Otherwise each of the
four counters that is not `-1` updates its rate state, and finally
`netif_devices[devIndex].last_read = now`. -/
def read_device (s : ModuleState) (devIndex : ℕ) (delta_t now : ℚ)
    (sr : SampleResult) : ModuleState :=
  match sr with
  | .timeout =>
      { s with devices := listModify s.devices devIndex fun d => { d with enabled := false } }
  | .data br bs pr ps =>
      { devices := listModify s.devices devIndex fun d => { d with last_read := now }
        bytes_received :=
          if br = -1 then s.bytes_received
          else listModify s.bytes_received devIndex fun d => update_perf_data d br delta_t
        bytes_sent :=
          if bs = -1 then s.bytes_sent
          else listModify s.bytes_sent devIndex fun d => update_perf_data d bs delta_t
        pkts_received :=
          if pr = -1 then s.pkts_received
          else listModify s.pkts_received devIndex fun d => update_perf_data d pr delta_t
        pkts_sent :=
          if ps = -1 then s.pkts_sent
          else listModify s.pkts_sent devIndex fun d => update_perf_data d ps delta_t }

/-- `netif_bytes_received_func`: if the device is enabled, compute
`delta_t = now - last_read` (`time_diff`), resample via `read_device` when
`delta_t > threshold`, and return `curr_value`; a disabled device yields the
`-1.0` sentinel.  Result: (returned value, new global state, whether
`read_device` was invoked). -/
def netif_bytes_received_func (s : ModuleState) (idx : ℕ) (now : ℚ)
    (sr : SampleResult) : ℚ × ModuleState × Bool :=
  let dev := s.devices.getD idx default
  if dev.enabled then
    let delta_t := now - dev.last_read
    if dev.threshold < delta_t then
      let s2 := read_device s idx delta_t now sr
      ((s2.bytes_received.getD idx default).curr_value, s2, true)
    else
      ((s.bytes_received.getD idx default).curr_value, s, false)
  else
    (-1, s, false)

/-- `netif_bytes_sent_func` (same shape as `netif_bytes_received_func`). -/
def netif_bytes_sent_func (s : ModuleState) (idx : ℕ) (now : ℚ)
    (sr : SampleResult) : ℚ × ModuleState × Bool :=
  let dev := s.devices.getD idx default
  if dev.enabled then
    let delta_t := now - dev.last_read
    if dev.threshold < delta_t then
      let s2 := read_device s idx delta_t now sr
      ((s2.bytes_sent.getD idx default).curr_value, s2, true)
    else
      ((s.bytes_sent.getD idx default).curr_value, s, false)
  else
    (-1, s, false)

/-- `netif_pkts_received_func` (same shape as `netif_bytes_received_func`). -/
def netif_pkts_received_func (s : ModuleState) (idx : ℕ) (now : ℚ)
    (sr : SampleResult) : ℚ × ModuleState × Bool :=
  let dev := s.devices.getD idx default
  if dev.enabled then
    let delta_t := now - dev.last_read
    if dev.threshold < delta_t then
      let s2 := read_device s idx delta_t now sr
      ((s2.pkts_received.getD idx default).curr_value, s2, true)
    else
      ((s.pkts_received.getD idx default).curr_value, s, false)
  else
    (-1, s, false)

/-- `netif_pkts_sent_func` (same shape as `netif_bytes_received_func`). -/
def netif_pkts_sent_func (s : ModuleState) (idx : ℕ) (now : ℚ)
    (sr : SampleResult) : ℚ × ModuleState × Bool :=
  let dev := s.devices.getD idx default
  if dev.enabled then
    let delta_t := now - dev.last_read
    if dev.threshold < delta_t then
      let s2 := read_device s idx delta_t now sr
      ((s2.pkts_sent.getD idx default).curr_value, s2, true)
    else
      ((s.pkts_sent.getD idx default).curr_value, s, false)
  else
    (-1, s, false)

/-- Kind-indexed view of the four getters (the dispatch that
`ibmnet_metric_handler` performs by metric-name suffix). -/
def metric_func : Kind → ModuleState → ℕ → ℚ → SampleResult → ℚ × ModuleState × Bool
  | .bytesReceived => netif_bytes_received_func
  | .bytesSent => netif_bytes_sent_func
  | .pktsReceived => netif_pkts_received_func
  | .pktsSent => netif_pkts_sent_func

/-- `MIN_THRESHOLD` is 5.0; `detect_and_verify_netif_devices` sets
`enabled = TRUE` and `threshold = MIN_THRESHOLD` for each discovered device. -/
def init_netif_device (nm : String) : NetifDevice :=
  { enabled := true, last_read := 0, threshold := 5, devName := nm }

/-- `apr_pcalloc` zero-fills each `net_perf_data_t`. -/
def zero_perf : NetPerfData := { last_value := 0, curr_value := 0, last_total_value := 0 }

/-- State right after `detect_and_verify_netif_devices` and the four
`init_metric` allocations, before the boot-time sampling loop. -/
def init_state0 (names : List String) : ModuleState :=
  { devices := names.map init_netif_device
    bytes_received := List.replicate names.length zero_perf
    bytes_sent := List.replicate names.length zero_perf
    pkts_received := List.replicate names.length zero_perf
    pkts_sent := List.replicate names.length zero_perf }

/-- `curr_value = 0.0` reset performed by the loop at the end of
`ibmnet_metric_init`. -/
def zero_curr (d : NetPerfData) : NetPerfData := { d with curr_value := 0 }

/-- One iteration of the boot-time loop in `ibmnet_metric_init`:
`read_device( i, 1.0, now )` followed by zeroing the four `curr_value`s of
device `i`. -/
def init_step (now : ℚ) (samples : ℕ → SampleResult) (s : ModuleState) (i : ℕ) : ModuleState :=
  let s1 := read_device s i 1 now (samples i)
  { s1 with
    bytes_received := listModify s1.bytes_received i zero_curr
    bytes_sent := listModify s1.bytes_sent i zero_curr
    pkts_received := listModify s1.pkts_received i zero_curr
    pkts_sent := listModify s1.pkts_sent i zero_curr }

/-- `ibmnet_metric_init`: build the tables for the discovered device names,
then run the boot-time sampling loop over every device.  `samples i` is the
oracle outcome of the boot-time `entstat` run for device `i`. -/
def ibmnet_metric_init (names : List String) (now : ℚ)
    (samples : ℕ → SampleResult) : ModuleState :=
  (List.range names.length).foldl (init_step now samples) (init_state0 names)

/-- States reachable during the module's lifetime: the post-init state,
followed by any sequence of getter calls (the only operations the gmond host
invokes). -/
inductive Reachable : ModuleState → Prop
  | init (names : List String) (now : ℚ) (samples : ℕ → SampleResult) :
      Reachable (ibmnet_metric_init names now samples)
  | step {s : ModuleState} (k : Kind) (idx : ℕ) (now : ℚ) (sr : SampleResult) :
      Reachable s → Reachable (metric_func k s idx now sr).2.1

/-! ## Basic lemmas about `listModify` and list access -/

theorem listModify_get? {α : Type} (l : List α) (j : ℕ) (f : α → α) (i : ℕ) :
    (listModify l j f).get? i = if i = j then (l.get? j).map f else l.get? i := by
  induction l generalizing i j with
  | nil => simp [listModify]
  | cons a l ih =>
    cases j with
    | zero => cases i <;> simp [listModify]
    | succ j =>
      cases i with
      | zero => simp [listModify]
      | succ i => simpa [listModify, Nat.succ_inj] using ih j i

theorem listModify_get?_self {α : Type} (l : List α) (j : ℕ) (f : α → α) :
    (listModify l j f).get? j = (l.get? j).map f := by
  rw [listModify_get?, if_pos rfl]

theorem listModify_get?_ne {α : Type} (l : List α) (j : ℕ) (f : α → α) {i : ℕ}
    (h : i ≠ j) : (listModify l j f).get? i = l.get? i := by
  rw [listModify_get?, if_neg h]

theorem mem_listModify {α : Type} {x : α} {l : List α} {j : ℕ} {f : α → α}
    (hx : x ∈ listModify l j f) : x ∈ l ∨ ∃ a ∈ l, x = f a := by
  induction l generalizing j with
  | nil => simp [listModify] at hx
  | cons a l ih =>
    cases j with
    | zero =>
      rcases List.mem_cons.1 hx with h | h
      · exact Or.inr ⟨a, List.mem_cons_self a l, h⟩
      · exact Or.inl (List.mem_cons_of_mem _ h)
    | succ j =>
      rcases List.mem_cons.1 hx with h | h
      · exact Or.inl (h ▸ List.mem_cons_self a l)
      · rcases ih h with h2 | ⟨b, hb, rfl⟩
        · exact Or.inl (List.mem_cons_of_mem _ h2)
        · exact Or.inr ⟨b, List.mem_cons_of_mem _ hb, rfl⟩

theorem getD_eq_get? {α : Type} : ∀ (l : List α) (i : ℕ) (d : α),
    l.getD i d = (l.get? i).getD d
  | [], _, _ => rfl
  | _ :: _, 0, _ => rfl
  | _ :: l, i + 1, d => getD_eq_get? l i d

theorem get?_replicate {α : Type} (a : α) : ∀ {n i : ℕ}, i < n →
    (List.replicate n a).get? i = some a := by
  intro n
  induction n with
  | zero => intro i h; omega
  | succ n ih =>
    intro i h
    cases i with
    | zero => rfl
    | succ i => exact ih (by omega)

/-! ## Component lemmas for `read_device` and the getters -/

theorem read_device_perf (s : ModuleState) (idx : ℕ) (dt now : ℚ)
    (br bs pr ps : ℤ) (k : Kind) :
    (read_device s idx dt now (.data br bs pr ps)).perf k =
      if (SampleResult.data br bs pr ps).counter k = -1 then s.perf k
      else listModify (s.perf k) idx
        fun d => update_perf_data d ((SampleResult.data br bs pr ps).counter k) dt := by
  cases k <;> rfl

theorem read_device_perf_timeout (s : ModuleState) (idx : ℕ) (dt now : ℚ) (k : Kind) :
    (read_device s idx dt now .timeout).perf k = s.perf k := by
  cases k <;> rfl

theorem read_device_devices (s : ModuleState) (idx : ℕ) (dt now : ℚ) (br bs pr ps : ℤ) :
    (read_device s idx dt now (.data br bs pr ps)).devices =
      listModify s.devices idx fun d => { d with last_read := now } := rfl

theorem read_device_devices_timeout (s : ModuleState) (idx : ℕ) (dt now : ℚ) :
    (read_device s idx dt now .timeout).devices =
      listModify s.devices idx fun d => { d with enabled := false } := rfl

/-- All four getters have the same shape; this states it once, kind-indexed. -/
theorem metric_func_eq (k : Kind) (s : ModuleState) (idx : ℕ) (now : ℚ) (sr : SampleResult) :
    metric_func k s idx now sr =
      (let dev := s.devices.getD idx default
       if dev.enabled then
         let delta_t := now - dev.last_read
         if dev.threshold < delta_t then
           let s2 := read_device s idx delta_t now sr
           (((s2.perf k).getD idx default).curr_value, s2, true)
         else (((s.perf k).getD idx default).curr_value, s, false)
       else (-1, s, false)) := by
  cases k <;> rfl

theorem foldl_preserve {α β : Type} (P : α → Prop) (f : α → β → α)
    (hf : ∀ s b, P s → P (f s b)) : ∀ (L : List β) (s : α), P s → P (L.foldl f s) := by
  intro L
  induction L with
  | nil => intro s h; exact h
  | cons b L ih => intro s h; exact ih _ (hf s b h)

theorem update_perf_data_last_value_nonneg (d : NetPerfData) (raw : ℤ) (dt : ℚ)
    (hdt : 0 < dt) (hd : 0 ≤ d.last_value) : 0 ≤ (update_perf_data d raw dt).last_value := by
  unfold update_perf_data
  dsimp only
  split
  · exact hd
  · next h =>
    exact div_nonneg (by exact_mod_cast not_lt.1 h) hdt.le

/-! ## Example states used by witnesses and counterexamples -/

/-- A one-interface state mid-lifetime (spec scenario: counter 1000 seen last). -/
def exS1 : ModuleState :=
  { devices := [{ enabled := true, last_read := 0, threshold := 5, devName := "ent0" }]
    bytes_received := [{ last_value := 0, curr_value := 0, last_total_value := 1000 }]
    bytes_sent := [{ last_value := 400, curr_value := 400, last_total_value := 3000 }]
    pkts_received := [{ last_value := 0, curr_value := 0, last_total_value := 1000 }]
    pkts_sent := [{ last_value := 0, curr_value := 0, last_total_value := 1000 }] }

/-- A two-interface state, for the fault-isolation frame claims. -/
def exS2 : ModuleState :=
  { devices := [{ enabled := true, last_read := 0, threshold := 5, devName := "ent0" },
                { enabled := true, last_read := 0, threshold := 5, devName := "ent1" }]
    bytes_received := [{ last_value := 1, curr_value := 1, last_total_value := 50 },
                       { last_value := 2, curr_value := 2, last_total_value := 60 }]
    bytes_sent := [{ last_value := 1, curr_value := 1, last_total_value := 50 },
                   { last_value := 2, curr_value := 2, last_total_value := 60 }]
    pkts_received := [{ last_value := 1, curr_value := 1, last_total_value := 50 },
                      { last_value := 2, curr_value := 2, last_total_value := 60 }]
    pkts_sent := [{ last_value := 1, curr_value := 1, last_total_value := 50 },
                  { last_value := 2, curr_value := 2, last_total_value := 60 }] }

/-- A one-interface state whose device has already been disabled by a timeout. -/
def exDis : ModuleState :=
  { devices := [{ enabled := false, last_read := 30, threshold := 5, devName := "ent1" }]
    bytes_received := [{ last_value := 4, curr_value := 4, last_total_value := 9 }]
    bytes_sent := [{ last_value := 4, curr_value := 4, last_total_value := 9 }]
    pkts_received := [{ last_value := 4, curr_value := 4, last_total_value := 9 }]
    pkts_sent := [{ last_value := 4, curr_value := 4, last_total_value := 9 }] }

/-! ## Claims C1, C2, C7: the rate-tracker update -/

/-- Claim C1: when a resample yields an available raw counter (not the `-1`
sentinel) whose delta against `last_total_value` is non-negative, the new rate
(`curr_value`) is exactly `delta / delta_t`, and the update stores that rate
into `last_value` and the raw counter into `last_total_value`. -/
theorem C1_nonneg_delta_rate (s : ModuleState) (idx : ℕ) (dt now : ℚ)
    (br bs pr ps : ℤ) (k : Kind) (p : NetPerfData)
    (hp : (s.perf k).get? idx = some p)
    (havail : (SampleResult.data br bs pr ps).counter k ≠ -1)
    (hdelta : 0 ≤ (SampleResult.data br bs pr ps).counter k - p.last_total_value) :
    ((read_device s idx dt now (.data br bs pr ps)).perf k).get? idx =
      some { last_value :=
               (((SampleResult.data br bs pr ps).counter k - p.last_total_value : ℤ) : ℚ) / dt
             curr_value :=
               (((SampleResult.data br bs pr ps).counter k - p.last_total_value : ℤ) : ℚ) / dt
             last_total_value := (SampleResult.data br bs pr ps).counter k } := by
  rw [read_device_perf, if_neg havail, listModify_get?_self, hp]
  simp only [Option.map_some', update_perf_data]
  rw [if_neg (not_lt.2 hdelta)]

/-- Witness for C1: spec scenario `1000 → 3000` over 5 seconds on
`bytes_received` gives rate `2000 / 5`. -/
theorem C1_nonneg_delta_rate_witness :
    ((read_device exS1 0 5 5 (.data 3000 (-1) (-1) (-1))).perf .bytesReceived).get? 0 =
      some { last_value := ((3000 - 1000 : ℤ) : ℚ) / 5
             curr_value := ((3000 - 1000 : ℤ) : ℚ) / 5
             last_total_value := 3000 } :=
  C1_nonneg_delta_rate exS1 0 5 5 3000 (-1) (-1) (-1) .bytesReceived
    { last_value := 0, curr_value := 0, last_total_value := 1000 }
    rfl (by decide) (by decide)

/-- Claim C2: when a resample yields an available raw counter whose delta is
negative (rollover/reset), the computed rate is the previous `last_value`
unchanged (no wrap correction), while `last_total_value` is still set to the
new raw counter. -/
theorem C2_negative_delta_holds_rate (s : ModuleState) (idx : ℕ) (dt now : ℚ)
    (br bs pr ps : ℤ) (k : Kind) (p : NetPerfData)
    (hp : (s.perf k).get? idx = some p)
    (havail : (SampleResult.data br bs pr ps).counter k ≠ -1)
    (hdelta : (SampleResult.data br bs pr ps).counter k - p.last_total_value < 0) :
    ((read_device s idx dt now (.data br bs pr ps)).perf k).get? idx =
      some { last_value := p.last_value
             curr_value := p.last_value
             last_total_value := (SampleResult.data br bs pr ps).counter k } := by
  rw [read_device_perf, if_neg havail, listModify_get?_self, hp]
  simp only [Option.map_some', update_perf_data]
  rw [if_pos hdelta]

/-- Witness for C2: spec scenario rollover `3000 → 2500` on `bytes_sent` keeps
the previous rate 400 while the raw counter becomes 2500. -/
theorem C2_negative_delta_holds_rate_witness :
    ((read_device exS1 0 5 5 (.data (-1) 2500 (-1) (-1))).perf .bytesSent).get? 0 =
      some { last_value := 400, curr_value := 400, last_total_value := 2500 } :=
  C2_negative_delta_holds_rate exS1 0 5 5 (-1) 2500 (-1) (-1) .bytesSent
    { last_value := 400, curr_value := 400, last_total_value := 3000 }
    rfl (by decide) (by decide)

/-- Claim C7: a metric kind whose raw counter is unavailable in a sample (the
`-1` sentinel; a whole-output parse failure leaves all four counters at `-1`)
has its rate state left completely untouched for that cycle. -/
theorem C7_unavailable_leaves_state (s : ModuleState) (idx : ℕ) (dt now : ℚ)
    (br bs pr ps : ℤ) (k : Kind)
    (hunavail : (SampleResult.data br bs pr ps).counter k = -1) :
    (read_device s idx dt now (.data br bs pr ps)).perf k = s.perf k := by
  rw [read_device_perf, if_pos hunavail]

/-- Witness for C7: a whole-output parse failure (all four counters `-1`)
leaves the `bytes_sent` states untouched. -/
theorem C7_unavailable_leaves_state_witness :
    (read_device exS1 0 5 5 (.data (-1) (-1) (-1) (-1))).perf .bytesSent =
      exS1.perf .bytesSent :=
  C7_unavailable_leaves_state exS1 0 5 5 (-1) (-1) (-1) (-1) .bytesSent (by decide)

/-! ## `getD`-level frame lemmas for the device array -/

theorem enabled_false_getD_listModify (l : List NetifDevice) (j i : ℕ)
    (f : NetifDevice → NetifDevice)
    (hf : ∀ d, d.enabled = false → (f d).enabled = false)
    (h : (l.getD i default).enabled = false) :
    ((listModify l j f).getD i default).enabled = false := by
  rw [getD_eq_get?] at h ⊢
  by_cases hij : i = j
  · subst hij
    rw [listModify_get?_self]
    cases hgi : l.get? i with
    | none => rfl
    | some d =>
      rw [hgi] at h
      simpa using hf d (by simpa using h)
  · rw [listModify_get?_ne _ _ _ hij]
    exact h

theorem last_read_getD_listModify (l : List NetifDevice) (j i : ℕ)
    (f : NetifDevice → NetifDevice) (hf : ∀ d, (f d).last_read = d.last_read) :
    ((listModify l j f).getD i default).last_read = (l.getD i default).last_read := by
  rw [getD_eq_get?, getD_eq_get?]
  by_cases hij : i = j
  · subst hij
    rw [listModify_get?_self]
    cases l.get? i with
    | none => rfl
    | some d => simpa using hf d
  · rw [listModify_get?_ne _ _ _ hij]

/-- The post-init state for one interface "ent0", boot sample all-counters 7
taken at time 100 (used by several witnesses/counterexamples). -/
def stEx : ModuleState := ibmnet_metric_init ["ent0"] 100 fun _ => .data 7 7 7 7

/-- What `stEx` evaluates to. -/
def stExLit : ModuleState :=
  { devices := [{ enabled := true, last_read := 100, threshold := 5, devName := "ent0" }]
    bytes_received := [{ last_value := 7, curr_value := 0, last_total_value := 7 }]
    bytes_sent := [{ last_value := 7, curr_value := 0, last_total_value := 7 }]
    pkts_received := [{ last_value := 7, curr_value := 0, last_total_value := 7 }]
    pkts_sent := [{ last_value := 7, curr_value := 0, last_total_value := 7 }] }

theorem stEx_eq : stEx = stExLit := by
  norm_num [stEx, stExLit, ibmnet_metric_init, init_state0, init_step, read_device,
    update_perf_data, listModify, zero_curr, zero_perf, init_netif_device,
    List.range_succ, List.range_zero]

/-! ## Claim C3: disabling is terminal -/

/-- Claim C3: once an interface's `enabled` flag is false, every getter call
for any of its four metric kinds returns the `-1.0` sentinel without sampling
or changing any state, and no operation (any getter on any index, with any
sample outcome) ever re-enables it: disabling is terminal, so the sampler is
never invoked again for that interface. -/
theorem C3_disabled_is_terminal (s : ModuleState) (idx : ℕ)
    (hdis : (s.devices.getD idx default).enabled = false) :
    (∀ (k : Kind) (now : ℚ) (sr : SampleResult), metric_func k s idx now sr = (-1, s, false)) ∧
    (∀ (k : Kind) (j : ℕ) (now : ℚ) (sr : SampleResult),
      (((metric_func k s j now sr).2.1).devices.getD idx default).enabled = false) := by
  constructor
  · intro k now sr
    rw [metric_func_eq]
    dsimp only
    rw [hdis, if_neg Bool.false_ne_true]
  · intro k j now sr
    rw [metric_func_eq]
    by_cases hen : (s.devices.getD j default).enabled = true
    · by_cases hdt :
        (s.devices.getD j default).threshold < now - (s.devices.getD j default).last_read
      · simp only [hen, hdt, if_true]
        cases sr with
        | timeout =>
          rw [read_device_devices_timeout]
          exact enabled_false_getD_listModify _ _ _ _ (fun d _ => rfl) hdis
        | data br bs pr ps =>
          rw [read_device_devices]
          exact enabled_false_getD_listModify _ _ _ _ (fun d h => h) hdis
      · simp only [hen, hdt, if_true, if_false]
        exact hdis
    · simp only [hen, if_false]
      exact hdis

/-- Witness for C3: a getter on the already-disabled `exDis` returns `-1.0`
without sampling or state change. -/
theorem C3_disabled_is_terminal_witness :
    metric_func .bytesSent exDis 0 50 (.data 1 2 3 4) = (-1, exDis, false) :=
  (C3_disabled_is_terminal exDis 0 rfl).1 .bytesSent 50 (.data 1 2 3 4)

/-! ## Claim C4: within-threshold getter (corrected) -/

/-- Claim C4, amended: for an enabled interface, a getter whose elapsed time
`now - last_read` is at most the threshold triggers no sampling, leaves the
state unchanged, and returns the cached current rate `curr_value` (which
coincides with `last_value` except right after initialisation, where
`curr_value` is `0.0`). -/
theorem C4_threshold_window_cached (k : Kind) (s : ModuleState) (idx : ℕ)
    (now : ℚ) (sr : SampleResult)
    (hen : (s.devices.getD idx default).enabled = true)
    (hdt : now - (s.devices.getD idx default).last_read ≤ (s.devices.getD idx default).threshold) :
    metric_func k s idx now sr = (((s.perf k).getD idx default).curr_value, s, false) := by
  rw [metric_func_eq]
  dsimp only
  rw [hen, if_pos rfl, if_neg (not_lt.2 hdt)]

/-- Counterexample to C4 as stated: in the reachable post-init state `stEx`
the interface is enabled and the elapsed time `102 - 100` is within the
threshold, yet the getter returns `curr_value = 0.0`, which differs from the
cached `last_value` (the claimed "lastRate") `7.0`. -/
theorem C4_counterexample :
    ((stEx.devices.getD 0 default).enabled = true) ∧
    (102 - (stEx.devices.getD 0 default).last_read ≤ (stEx.devices.getD 0 default).threshold) ∧
    (metric_func .bytesReceived stEx 0 102 (.data 9 9 9 9)).1 ≠
      ((stEx.perf .bytesReceived).getD 0 default).last_value := by
  refine ⟨by rw [stEx_eq]; rfl, ?_, ?_⟩
  · rw [stEx_eq]
    show (102 : ℚ) - 100 ≤ 5
    norm_num
  · rw [stEx_eq]
    norm_num [stExLit, metric_func, netif_bytes_received_func, read_device, listModify,
      update_perf_data, ModuleState.perf]

/-- Witness for the amended C4: on `stEx` at time 103 (elapsed 3 ≤ 5) the
getter returns the cached `curr_value` with no sampling. -/
theorem C4_threshold_window_cached_witness :
    metric_func .pktsSent stEx 0 103 .timeout =
      (((stEx.perf .pktsSent).getD 0 default).curr_value, stEx, false) :=
  C4_threshold_window_cached .pktsSent stEx 0 103 .timeout
    (by rw [stEx_eq]; rfl)
    (by rw [stEx_eq]; show (103 : ℚ) - 100 ≤ 5; norm_num)

/-! ## Claim C9: timeout disables only the one interface record -/

/-- Claim C9: the timeout path of `read_device` (the `SIGALRM` handler plus
`longjmp` return) modifies only the interrogated interface's record, and only
its `enabled` flag; every other interface's record and all rate states of
every interface (including the interrogated one) are unchanged. -/
theorem C9_timeout_frame (s : ModuleState) (idx : ℕ) (dt now : ℚ) :
    ((read_device s idx dt now .timeout).devices.get? idx =
        (s.devices.get? idx).map fun d => { d with enabled := false }) ∧
    (∀ j, j ≠ idx → (read_device s idx dt now .timeout).devices.get? j = s.devices.get? j) ∧
    (∀ k : Kind, (read_device s idx dt now .timeout).perf k = s.perf k) := by
  refine ⟨?_, ?_, ?_⟩
  · rw [read_device_devices_timeout, listModify_get?_self]
  · intro j hj
    rw [read_device_devices_timeout, listModify_get?_ne _ _ _ hj]
  · exact read_device_perf_timeout s idx dt now

/-- Witness for C9: disabling "ent0" in the two-interface state `exS2` leaves
"ent1"'s record and the `bytes_sent` rate states untouched. -/
theorem C9_timeout_frame_witness :
    (read_device exS2 0 6 106 .timeout).devices.get? 1 = exS2.devices.get? 1 ∧
    (read_device exS2 0 6 106 .timeout).perf .bytesSent = exS2.perf .bytesSent :=
  ⟨(C9_timeout_frame exS2 0 6 106).2.1 1 (by decide),
   (C9_timeout_frame exS2 0 6 106).2.2 .bytesSent⟩

/-! ## Claim C5: when `last_read` is updated (corrected) -/

/-- Claim C5, amended: `last_read` is updated only by a sample attempt that
completes without timing out (and then it becomes `now`); a timed-out attempt
returns through `longjmp` before the `last_read = now` assignment, so
`last_read` is unchanged, as it is for any getter that does not sample. -/
theorem C5_last_read_only_completed_sample (k : Kind) (s : ModuleState) (idx : ℕ)
    (now : ℚ) (sr : SampleResult) (i : ℕ) :
    (¬(i = idx ∧ (s.devices.getD idx default).enabled = true ∧
        (s.devices.getD idx default).threshold < now - (s.devices.getD idx default).last_read ∧
        sr ≠ .timeout) →
      (((metric_func k s idx now sr).2.1).devices.getD i default).last_read =
        (s.devices.getD i default).last_read) ∧
    ((i = idx ∧ (s.devices.getD idx default).enabled = true ∧
        (s.devices.getD idx default).threshold < now - (s.devices.getD idx default).last_read ∧
        sr ≠ .timeout) →
      (((metric_func k s idx now sr).2.1).devices.getD i default).last_read = now) := by
  constructor
  · intro hneg
    rw [metric_func_eq]
    dsimp only
    by_cases hen : (s.devices.getD idx default).enabled = true
    · by_cases hdt :
        (s.devices.getD idx default).threshold < now - (s.devices.getD idx default).last_read
      · rw [hen, if_pos rfl, if_pos hdt]
        dsimp only
        cases sr with
        | timeout =>
          rw [read_device_devices_timeout]
          exact last_read_getD_listModify _ _ _ _ fun d => rfl
        | data br bs pr ps =>
          have hne : i ≠ idx := fun h => hneg ⟨h, hen, hdt, by simp⟩
          rw [read_device_devices, getD_eq_get?, getD_eq_get?,
            listModify_get?_ne _ _ _ hne]
      · rw [hen, if_pos rfl, if_neg hdt]
    · rw [if_neg hen]
  · rintro ⟨rfl, hen, hdt, hsr⟩
    rw [metric_func_eq]
    dsimp only
    rw [hen, if_pos rfl, if_pos hdt]
    dsimp only
    cases sr with
    | timeout => exact absurd rfl hsr
    | data br bs pr ps =>
      rw [read_device_devices, getD_eq_get?, listModify_get?_self]
      cases hgi : s.devices.get? i with
      | none =>
        exfalso
        rw [getD_eq_get?, hgi] at hen
        exact Bool.false_ne_true hen
      | some d => rfl

/-- Counterexample to C5 as stated: on the reachable state `stEx`, a getter at
time 200 triggers a sample attempt (flag `true`) that times out, yet
`last_read` still holds the old value 100, not a value reflecting the
attempt. -/
theorem C5_counterexample :
    ((metric_func .bytesReceived stEx 0 200 .timeout).2.2 = true) ∧
    ((((metric_func .bytesReceived stEx 0 200 .timeout).2.1).devices.getD 0 default).last_read
      = 100) ∧
    ((100 : ℚ) ≠ 200) := by
  refine ⟨?_, ?_, by norm_num⟩
  · rw [stEx_eq]
    norm_num [stExLit, metric_func, netif_bytes_received_func, read_device, listModify]
  · rw [stEx_eq]
    norm_num [stExLit, metric_func, netif_bytes_received_func, read_device, listModify]

/-- Witness for the amended C5: a completed (non-timeout) due sample sets
`last_read` to `now`, here 110. -/
theorem C5_last_read_only_completed_sample_witness :
    (((metric_func .bytesSent stEx 0 110 (.data 8 9 10 11)).2.1).devices.getD 0
        default).last_read = 110 :=
  (C5_last_read_only_completed_sample .bytesSent stEx 0 110 (.data 8 9 10 11) 0).2
    ⟨rfl, by rw [stEx_eq]; rfl,
     by rw [stEx_eq]; show (5 : ℚ) < 110 - 100; norm_num, by simp⟩

/-! ## Claim C6: one sample covers all four kinds (corrected) -/

/-- Claim C6, amended: for an enabled interface whose elapsed time exceeds the
threshold, a getter for any single kind triggers exactly one `read_device`
invocation (the sampled flag is `true` and the new state is that one call's
result); when the invocation completes without timing out it sets `last_read`
to `now` and updates, from that single sample and the same elapsed time, every
one of the four rate states whose counter was available (`≠ -1`), leaving the
unavailable ones untouched.  On a timeout, `last_read` is not set (see C5). -/
theorem C6_single_sample_all_kinds (kq : Kind) (s : ModuleState) (idx : ℕ) (now : ℚ)
    (br bs pr ps : ℤ)
    (hen : (s.devices.getD idx default).enabled = true)
    (hdt : (s.devices.getD idx default).threshold
      < now - (s.devices.getD idx default).last_read) :
    (metric_func kq s idx now (.data br bs pr ps)).2.2 = true ∧
    (metric_func kq s idx now (.data br bs pr ps)).2.1 =
      read_device s idx (now - (s.devices.getD idx default).last_read) now
        (.data br bs pr ps) ∧
    (((metric_func kq s idx now (.data br bs pr ps)).2.1).devices.getD idx
        default).last_read = now ∧
    (∀ k : Kind, (((metric_func kq s idx now (.data br bs pr ps)).2.1).perf k).get? idx =
      if (SampleResult.data br bs pr ps).counter k = -1 then (s.perf k).get? idx
      else ((s.perf k).get? idx).map
        fun d => update_perf_data d ((SampleResult.data br bs pr ps).counter k)
          (now - (s.devices.getD idx default).last_read)) := by
  have hmf : metric_func kq s idx now (.data br bs pr ps) =
      ((((read_device s idx (now - (s.devices.getD idx default).last_read) now
            (.data br bs pr ps)).perf kq).getD idx default).curr_value,
        read_device s idx (now - (s.devices.getD idx default).last_read) now
          (.data br bs pr ps), true) := by
    rw [metric_func_eq]
    dsimp only
    rw [hen, if_pos rfl, if_pos hdt]
  refine ⟨by rw [hmf], by rw [hmf], ?_, ?_⟩
  · rw [hmf]
    dsimp only
    rw [read_device_devices, getD_eq_get?, listModify_get?_self]
    cases hgi : s.devices.get? idx with
    | none =>
      exfalso
      rw [getD_eq_get?, hgi] at hen
      exact Bool.false_ne_true hen
    | some d => rfl
  · intro k
    rw [hmf]
    dsimp only
    rw [read_device_perf]
    by_cases hc : (SampleResult.data br bs pr ps).counter k = -1
    · rw [if_pos hc, if_pos hc]
    · rw [if_neg hc, if_neg hc, listModify_get?_self]

/-- Counterexample to C6 as stated: on `stEx` with elapsed `300 - 100`
exceeding the threshold, the triggered sampler invocation times out, and
`last_read` is *not* set to `now = 300`, contradicting the claim's
"sets lastSampleTime to now". -/
theorem C6_counterexample :
    ((stEx.devices.getD 0 default).enabled = true) ∧
    ((stEx.devices.getD 0 default).threshold < 300 - (stEx.devices.getD 0 default).last_read) ∧
    ((metric_func .pktsReceived stEx 0 300 .timeout).2.2 = true) ∧
    ((((metric_func .pktsReceived stEx 0 300 .timeout).2.1).devices.getD 0
        default).last_read ≠ 300) := by
  refine ⟨by rw [stEx_eq]; rfl, ?_, ?_, ?_⟩
  · rw [stEx_eq]
    show (5 : ℚ) < 300 - 100
    norm_num
  · rw [stEx_eq]
    norm_num [stExLit, metric_func, netif_pkts_received_func, read_device, listModify]
  · rw [stEx_eq]
    norm_num [stExLit, metric_func, netif_pkts_received_func, read_device, listModify]

/-- Witness for the amended C6: on `stEx` at time 110, a `bytes_received`
getter samples once; the `pkts_sent` state (counter 11, available) is updated
from the same sample. -/
theorem C6_single_sample_all_kinds_witness :
    ((metric_func .bytesReceived stEx 0 110 (.data 8 9 10 11)).2.2 = true) ∧
    ((((metric_func .bytesReceived stEx 0 110 (.data 8 9 10 11)).2.1).perf
        .pktsSent).get? 0 =
      ((stEx.perf .pktsSent).get? 0).map
        fun d => update_perf_data d 11 (110 - (stEx.devices.getD 0 default).last_read)) := by
  have h := C6_single_sample_all_kinds .bytesReceived stEx 0 110 8 9 10 11
    (by rw [stEx_eq]; rfl)
    (by rw [stEx_eq]; show (5 : ℚ) < 110 - 100; norm_num)
  refine ⟨h.1, ?_⟩
  have h4 := h.2.2.2 .pktsSent
  rw [if_neg (by decide)] at h4
  exact h4

/-! ## Claim C8: the non-negative-rate invariant over reachable states -/

/-- The module-state invariant: thresholds are positive (they are set once to
`MIN_THRESHOLD = 5.0`) and every stored `last_value` is non-negative. -/
def GoodState (s : ModuleState) : Prop :=
  (∀ d ∈ s.devices, 0 < d.threshold) ∧ ∀ k : Kind, ∀ p ∈ s.perf k, 0 ≤ p.last_value

theorem read_device_good (s : ModuleState) (idx : ℕ) (dt now : ℚ) (sr : SampleResult)
    (hdt : 0 < dt) (h : GoodState s) : GoodState (read_device s idx dt now sr) := by
  obtain ⟨hth, hlv⟩ := h
  cases sr with
  | timeout =>
    constructor
    · intro d hd
      rw [read_device_devices_timeout] at hd
      rcases mem_listModify hd with hmem | ⟨a, ha, rfl⟩
      · exact hth d hmem
      · exact hth a ha
    · intro k p hp
      rw [read_device_perf_timeout] at hp
      exact hlv k p hp
  | data br bs pr ps =>
    constructor
    · intro d hd
      rw [read_device_devices] at hd
      rcases mem_listModify hd with hmem | ⟨a, ha, rfl⟩
      · exact hth d hmem
      · exact hth a ha
    · intro k p hp
      rw [read_device_perf] at hp
      by_cases hc : (SampleResult.data br bs pr ps).counter k = -1
      · rw [if_pos hc] at hp
        exact hlv k p hp
      · rw [if_neg hc] at hp
        rcases mem_listModify hp with hmem | ⟨a, ha, rfl⟩
        · exact hlv k p hmem
        · exact update_perf_data_last_value_nonneg a _ dt hdt (hlv k a ha)

theorem init_step_perf (now : ℚ) (samples : ℕ → SampleResult) (s : ModuleState)
    (i : ℕ) (k : Kind) :
    (init_step now samples s i).perf k =
      listModify ((read_device s i 1 now (samples i)).perf k) i zero_curr := by
  cases k <;> rfl

theorem init_step_devices (now : ℚ) (samples : ℕ → SampleResult) (s : ModuleState) (i : ℕ) :
    (init_step now samples s i).devices = (read_device s i 1 now (samples i)).devices := rfl

theorem init_step_good (now : ℚ) (samples : ℕ → SampleResult) (s : ModuleState) (i : ℕ)
    (h : GoodState s) : GoodState (init_step now samples s i) := by
  have h2 := read_device_good s i 1 now (samples i) one_pos h
  constructor
  · intro d hd
    rw [init_step_devices] at hd
    exact h2.1 d hd
  · intro k p hp
    rw [init_step_perf] at hp
    rcases mem_listModify hp with hmem | ⟨a, ha, rfl⟩
    · exact h2.2 k p hmem
    · exact h2.2 k a ha

theorem init_good (names : List String) (now : ℚ) (samples : ℕ → SampleResult) :
    GoodState (ibmnet_metric_init names now samples) := by
  unfold ibmnet_metric_init
  refine foldl_preserve GoodState _ (fun s i h => init_step_good now samples s i h) _ _ ⟨?_, ?_⟩
  · intro d hd
    rcases List.mem_map.1 hd with ⟨nm, _, rfl⟩
    norm_num [init_netif_device]
  · intro k p hp
    have hz : p = zero_perf := by
      cases k <;> exact List.eq_of_mem_replicate hp
    rw [hz]
    norm_num [zero_perf]

theorem step_good (k : Kind) (s : ModuleState) (idx : ℕ) (now : ℚ) (sr : SampleResult)
    (h : GoodState s) : GoodState ((metric_func k s idx now sr).2.1) := by
  rw [metric_func_eq]
  dsimp only
  by_cases hen : (s.devices.getD idx default).enabled = true
  · by_cases hdt :
      (s.devices.getD idx default).threshold < now - (s.devices.getD idx default).last_read
    · rw [hen, if_pos rfl, if_pos hdt]
      dsimp only
      have hmem : s.devices.getD idx default ∈ s.devices := by
        rw [getD_eq_get?]
        cases hgi : s.devices.get? idx with
        | none =>
          exfalso
          rw [getD_eq_get?, hgi] at hen
          exact Bool.false_ne_true hen
        | some d => exact List.get?_mem hgi
      have hpos : 0 < now - (s.devices.getD idx default).last_read :=
        lt_trans (h.1 _ hmem) hdt
      exact read_device_good s idx _ now sr hpos h
    · rw [hen, if_pos rfl, if_neg hdt]
      exact h
  · rw [if_neg hen]
    exact h

/-- Claim C8: in every reachable state, every rate state's `last_value`
("lastRate") is non-negative, and a getter step leaves a cell's whole rate
state untouched unless it is the rate tracker's update for that cell (the
interrogated index, an enabled device, elapsed time above the threshold, and
an available counter); the positivity of elapsed time at an update follows
from the positive-threshold invariant, and sampled counters need not be
assumed non-negative because a negative delta never enters the division. -/
theorem C8_lastRate_invariant (s : ModuleState) (h : Reachable s) :
    (∀ k : Kind, ∀ p ∈ s.perf k, 0 ≤ p.last_value) ∧
    (∀ (k kq : Kind) (idx : ℕ) (now : ℚ) (sr : SampleResult) (i : ℕ),
      ¬(i = idx ∧ (s.devices.getD idx default).enabled = true ∧
        (s.devices.getD idx default).threshold < now - (s.devices.getD idx default).last_read ∧
        sr.counter kq ≠ -1) →
      (((metric_func k s idx now sr).2.1).perf kq).get? i = (s.perf kq).get? i) := by
  constructor
  · have hg : GoodState s := by
      induction h with
      | init names now samples => exact init_good names now samples
      | step k idx now sr _ ih => exact step_good k _ idx now sr ih
    exact hg.2
  · intro k kq idx now sr i hneg
    rw [metric_func_eq]
    dsimp only
    by_cases hen : (s.devices.getD idx default).enabled = true
    · by_cases hdt :
        (s.devices.getD idx default).threshold < now - (s.devices.getD idx default).last_read
      · rw [hen, if_pos rfl, if_pos hdt]
        dsimp only
        cases sr with
        | timeout => rw [read_device_perf_timeout]
        | data br bs pr ps =>
          rw [read_device_perf]
          by_cases hc : (SampleResult.data br bs pr ps).counter kq = -1
          · rw [if_pos hc]
          · rw [if_neg hc]
            exact listModify_get?_ne _ _ _ fun he => hneg ⟨he, hen, hdt, hc⟩
      · rw [hen, if_pos rfl, if_neg hdt]
    · rw [if_neg hen]

/-- Witness for C8 at the reachable post-init state `stEx`. -/
theorem C8_lastRate_invariant_witness :
    0 ≤ ((stEx.perf .bytesReceived).getD 0 default).last_value := by
  refine (C8_lastRate_invariant stEx
    (Reachable.init ["ent0"] 100 fun _ => .data 7 7 7 7)).1 .bytesReceived _ ?_
  rw [stEx_eq]
  exact List.mem_cons_self _ _

/-! ## Claim C10: the state produced by `ibmnet_metric_init` -/

/-- Everything `ibmnet_metric_init` keeps about one interface: its device
record and its four per-kind rate states. -/
abbrev DevCell : Type :=
  Option NetifDevice × Option NetPerfData × Option NetPerfData ×
    Option NetPerfData × Option NetPerfData

def devCell (s : ModuleState) (i : ℕ) : DevCell :=
  (s.devices.get? i, s.bytes_received.get? i, s.bytes_sent.get? i,
   s.pkts_received.get? i, s.pkts_sent.get? i)

/-- Effect of one boot-loop iteration on its own interface's cell:
`read_device` with `delta_t = 1.0` followed by the `curr_value = 0.0`
resets. -/
def initCellResult (now : ℚ) (sr : SampleResult) (c : DevCell) : DevCell :=
  match sr with
  | .timeout =>
      ((c.1.map fun d => { d with enabled := false }),
       c.2.1.map zero_curr, c.2.2.1.map zero_curr,
       c.2.2.2.1.map zero_curr, c.2.2.2.2.map zero_curr)
  | .data br bs pr ps =>
      ((c.1.map fun d => { d with last_read := now }),
       (if br = -1 then c.2.1 else c.2.1.map fun d => update_perf_data d br 1).map zero_curr,
       (if bs = -1 then c.2.2.1 else c.2.2.1.map fun d => update_perf_data d bs 1).map zero_curr,
       (if pr = -1 then c.2.2.2.1 else
         c.2.2.2.1.map fun d => update_perf_data d pr 1).map zero_curr,
       (if ps = -1 then c.2.2.2.2 else
         c.2.2.2.2.map fun d => update_perf_data d ps 1).map zero_curr)

theorem listModify_get?_ne2 {α : Type} {i j : ℕ} (h : i ≠ j) (l : List α) (f : α → α) :
    (listModify l j f).get? i = l.get? i :=
  listModify_get?_ne l j f h

theorem devCell_init_step (now : ℚ) (samples : ℕ → SampleResult) (s : ModuleState) (i : ℕ) :
    devCell (init_step now samples s i) i = initCellResult now (samples i) (devCell s i) := by
  cases hsr : samples i with
  | timeout =>
    simp only [devCell, init_step, initCellResult, hsr, read_device, listModify_get?_self]
  | data br bs pr ps =>
    simp only [devCell, init_step, initCellResult, hsr, read_device, listModify_get?_self,
      apply_ite (fun l : List NetPerfData => l.get? i),
      apply_ite (fun o : Option NetPerfData => o.map zero_curr)]

theorem devCell_init_step_ne (now : ℚ) (samples : ℕ → SampleResult) (s : ModuleState)
    (j i : ℕ) (hij : i ≠ j) :
    devCell (init_step now samples s j) i = devCell s i := by
  cases hsr : samples j with
  | timeout =>
    simp only [devCell, init_step, hsr, read_device, listModify_get?_ne2 hij]
  | data br bs pr ps =>
    simp only [devCell, init_step, hsr, read_device, listModify_get?_ne2 hij,
      apply_ite (fun l : List NetPerfData => l.get? i), ite_self]

theorem devCell_foldl_not_mem (now : ℚ) (samples : ℕ → SampleResult) :
    ∀ (L : List ℕ) (i : ℕ), i ∉ L → ∀ s : ModuleState,
      devCell (L.foldl (init_step now samples) s) i = devCell s i := by
  intro L
  induction L with
  | nil => intro i _ s; rfl
  | cons j L ih =>
    intro i hi s
    rw [List.foldl_cons, ih i (fun h => hi (List.mem_cons_of_mem _ h))]
    exact devCell_init_step_ne now samples s j i
      fun h => hi (h ▸ List.mem_cons_self j L)

theorem devCell_foldl_range (now : ℚ) (samples : ℕ → SampleResult) :
    ∀ (n : ℕ) (s : ModuleState) (i : ℕ), i < n →
      devCell ((List.range n).foldl (init_step now samples) s) i =
        initCellResult now (samples i) (devCell s i) := by
  intro n
  induction n with
  | zero => intro s i hi; exact absurd hi (by omega)
  | succ n ih =>
    intro s i hi
    rw [List.range_succ, List.foldl_append, List.foldl_cons, List.foldl_nil]
    by_cases h : i = n
    · subst h
      rw [devCell_init_step,
        devCell_foldl_not_mem now samples (List.range i) i (by simp) s]
    · have hlt : i < n := by omega
      rw [devCell_init_step_ne now samples _ n i h]
      exact ih s i hlt

theorem get?_some_lt {α : Type} : ∀ (l : List α) (i : ℕ) (a : α),
    l.get? i = some a → i < l.length
  | [], _, _, h => absurd h (by simp)
  | _ :: _, 0, _, _ => Nat.succ_pos _
  | _ :: l, i + 1, a, h => Nat.succ_lt_succ (get?_some_lt l i a h)

theorem get?_map_own {α β : Type} (f : α → β) : ∀ (l : List α) (i : ℕ),
    (l.map f).get? i = (l.get? i).map f
  | [], _ => rfl
  | _ :: _, 0 => rfl
  | _ :: l, i + 1 => get?_map_own f l i

theorem devCell_init_state0 (names : List String) (i : ℕ) (nm : String)
    (hnm : names.get? i = some nm) :
    devCell (init_state0 names) i =
      (some (init_netif_device nm), some zero_perf, some zero_perf,
       some zero_perf, some zero_perf) := by
  have hi : i < names.length := get?_some_lt names i nm hnm
  simp only [devCell, init_state0]
  rw [get?_map_own, hnm, get?_replicate _ hi]
  rfl

theorem zero_curr_update_zero (c : ℤ) (hc : 0 ≤ c) :
    zero_curr (update_perf_data zero_perf c 1) =
      { last_value := (c : ℚ) / 1, curr_value := 0, last_total_value := c } := by
  unfold zero_curr update_perf_data zero_perf
  dsimp only
  rw [Int.sub_zero, if_neg (not_lt.2 hc)]

/-- Claim C10: after `ibmnet_metric_init` (device `i` discovered as `nm`, its
boot sample delivering four counters, each non-negative), every per-kind rate
state has `curr_value = 0.0` but `last_value` equal to the boot counter
divided by `1.0`; hence a getter within the first threshold window returns
`0.0`, while a first post-startup resample that observes a negative delta
returns the held `last_value`, i.e. the initial absolute counter value. -/
theorem C10_post_init (names : List String) (now : ℚ) (samples : ℕ → SampleResult)
    (i : ℕ) (nm : String) (hnm : names.get? i = some nm)
    (br bs pr ps : ℤ) (hsi : samples i = .data br bs pr ps)
    (hnn : ∀ k : Kind, 0 ≤ (SampleResult.data br bs pr ps).counter k) :
    ((ibmnet_metric_init names now samples).devices.get? i =
        some { enabled := true, last_read := now, threshold := 5, devName := nm }) ∧
    (∀ k : Kind, ((ibmnet_metric_init names now samples).perf k).get? i =
        some { last_value := (((SampleResult.data br bs pr ps).counter k : ℤ) : ℚ) / 1
               curr_value := 0
               last_total_value := (SampleResult.data br bs pr ps).counter k }) ∧
    (∀ (k : Kind) (now2 : ℚ) (sr2 : SampleResult), now2 - now ≤ 5 →
        (metric_func k (ibmnet_metric_init names now samples) i now2 sr2).1 = 0) ∧
    (∀ (k : Kind) (now2 : ℚ) (br2 bs2 pr2 ps2 : ℤ),
        5 < now2 - now →
        (SampleResult.data br2 bs2 pr2 ps2).counter k ≠ -1 →
        (SampleResult.data br2 bs2 pr2 ps2).counter k
          - (SampleResult.data br bs pr ps).counter k < 0 →
        (metric_func k (ibmnet_metric_init names now samples) i now2
          (.data br2 bs2 pr2 ps2)).1
          = (((SampleResult.data br bs pr ps).counter k : ℤ) : ℚ) / 1) := by
  have hi : i < names.length := get?_some_lt names i nm hnm
  have hcell : devCell (ibmnet_metric_init names now samples) i =
      initCellResult now (samples i) (devCell (init_state0 names) i) :=
    devCell_foldl_range now samples names.length (init_state0 names) i hi
  rw [devCell_init_state0 names i nm hnm, hsi] at hcell
  have hbr : br ≠ -1 := by
    intro h
    have h2 : (0 : ℤ) ≤ br := hnn .bytesReceived
    rw [h] at h2
    norm_num at h2
  have hbs : bs ≠ -1 := by
    intro h
    have h2 : (0 : ℤ) ≤ bs := hnn .bytesSent
    rw [h] at h2
    norm_num at h2
  have hpr : pr ≠ -1 := by
    intro h
    have h2 : (0 : ℤ) ≤ pr := hnn .pktsReceived
    rw [h] at h2
    norm_num at h2
  have hps : ps ≠ -1 := by
    intro h
    have h2 : (0 : ℤ) ≤ ps := hnn .pktsSent
    rw [h] at h2
    norm_num at h2
  simp only [initCellResult] at hcell
  rw [if_neg hbr, if_neg hbs, if_neg hpr, if_neg hps] at hcell
  simp only [Option.map_some'] at hcell
  rw [zero_curr_update_zero br (hnn .bytesReceived), zero_curr_update_zero bs (hnn .bytesSent),
    zero_curr_update_zero pr (hnn .pktsReceived),
    zero_curr_update_zero ps (hnn .pktsSent)] at hcell
  unfold devCell at hcell
  simp only [Prod.mk.injEq] at hcell
  obtain ⟨h1, h2, h3, h4, h5⟩ := hcell
  have hperf : ∀ k : Kind, ((ibmnet_metric_init names now samples).perf k).get? i =
      some { last_value := (((SampleResult.data br bs pr ps).counter k : ℤ) : ℚ) / 1
             curr_value := 0
             last_total_value := (SampleResult.data br bs pr ps).counter k } := by
    intro k
    cases k
    · exact h2
    · exact h3
    · exact h4
    · exact h5
  have hdev : (ibmnet_metric_init names now samples).devices.getD i default =
      { enabled := true, last_read := now, threshold := 5, devName := nm } := by
    rw [getD_eq_get?, h1]
    rfl
  refine ⟨by rw [h1]; rfl, hperf, ?_, ?_⟩
  · intro k now2 sr2 hwin
    rw [metric_func_eq]
    dsimp only
    rw [hdev, if_pos rfl, if_neg (not_lt.2 (show now2 - now ≤ (5 : ℚ) from hwin))]
    dsimp only
    rw [getD_eq_get?, hperf k]
    rfl
  · intro k now2 br2 bs2 pr2 ps2 hdt hav hneg
    rw [metric_func_eq]
    dsimp only
    rw [hdev, if_pos rfl, if_pos (show (5 : ℚ) < now2 - now from hdt)]
    dsimp only
    rw [read_device_perf, if_neg hav, getD_eq_get?, listModify_get?_self, hperf k]
    simp only [Option.map_some', Option.getD_some]
    unfold update_perf_data
    dsimp only
    rw [if_pos hneg]

/-- Witness for C10: one interface "ent0", boot counters all 7 at time 100;
a rollover resample (counter 1) at time 110 reports the held rate `7 / 1`. -/
theorem C10_post_init_witness :
    ((ibmnet_metric_init ["ent0"] 100 fun _ => .data 7 7 7 7).devices.get? 0 =
        some { enabled := true, last_read := 100, threshold := 5, devName := "ent0" }) ∧
    ((metric_func .bytesReceived (ibmnet_metric_init ["ent0"] 100 fun _ => .data 7 7 7 7)
        0 110 (.data 1 2 3 4)).1 = ((7 : ℤ) : ℚ) / 1) := by
  have h := C10_post_init ["ent0"] 100 (fun _ => .data 7 7 7 7) 0 "ent0" rfl 7 7 7 7 rfl
    (by intro k; cases k <;> decide)
  exact ⟨h.1, h.2.2.2 .bytesReceived 110 1 2 3 4 (by norm_num) (by decide) (by decide)⟩

end Ibmnet
